import Mathlib

/-!
Verification development for the gpio-buttons-go button-manager library.

The repository ships two implementations of the same API in `button.go`:
a poll-based variant built on periph.io (blocking `WaitForEdge` watch loop)
and a push-based variant built on go-gpiocdev (kernel event handler attached
at registration time).  Both are embedded below.

Timestamps and durations are modelled as mathematical integers standing for
Go's `time.Time` / `time.Duration` nanosecond counts (the Go values are int64;
all quantities handled here are far from the overflow boundary, which is
therefore not modelled).  The Go zero `time.Time` used by the push variant's
`last.IsZero()` check is modelled as `Option.none`.
-/

namespace GpioButtons

abbrev Duration := Int
abbrev Timestamp := Int

/-- `defaultDebounceTime = 50 * time.Millisecond`, in nanoseconds. -/
def defaultDebounceTime : Duration := 50000000

/-! ## Debounce gates

The poll variant keeps `lastPress` in the `button` struct and consults
`isDebouncePassed` / `updateLastPress`; the push variant keeps a captured
`last` value inside the event-handler closure of `AddButton`. -/

/-- Poll variant, `isDebouncePassed`: `time.Since(btn.lastPress) > btn.config.DebounceTime`
with `now` the current time, i.e. `now - lastPress > window`. -/
def isDebouncePassed (window : Duration) (lastPress now : Timestamp) : Bool :=
  decide (now - lastPress > window)

/-- One candidate press through the poll-variant gate: on accept,
`updateLastPress` stores the current time; on reject the state is unchanged.
Returns the new `lastPress` state and whether the candidate was accepted. -/
def debounceStep (window : Duration) (lastPress t : Timestamp) : Timestamp × Bool :=
  if isDebouncePassed window lastPress t then (t, true) else (lastPress, false)

/-- Accept/reject verdicts of the poll-variant gate over a sequence of
candidate press timestamps. -/
def debounceRun (window : Duration) (lastPress : Timestamp) : List Timestamp → List Bool
  | [] => []
  | t :: ts =>
      let r := debounceStep window lastPress t
      r.2 :: debounceRun window r.1 ts

/-- Successive `lastPress` states of the poll-variant gate over a sequence of
candidate press timestamps. -/
def debounceLasts (window : Duration) (lastPress : Timestamp) : List Timestamp → List Timestamp
  | [] => []
  | t :: ts =>
      let r := debounceStep window lastPress t
      r.1 :: debounceLasts window r.1 ts

/-- Push variant, the in-handler guard of `AddButton`:
the event is rejected (early `return`) iff
`config.DebounceTime > 0 && !last.IsZero() && now.Sub(last) <= config.DebounceTime/2`.
`none` models the zero `time.Time`. -/
def handlerAccepts (window : Duration) (last : Option Timestamp) (now : Timestamp) : Bool :=
  match last with
  | none => true
  | some l => !(decide (window > 0) && decide (now - l ≤ window / 2))

/-- One event through the push-variant handler: if not rejected, the callback
is dispatched and `last = now` is recorded.  Returns the new `last` state and
whether the callback path was taken. -/
def handlerStep (window : Duration) (last : Option Timestamp) (now : Timestamp) :
    Option Timestamp × Bool :=
  if handlerAccepts window last now then (some now, true) else (last, false)

/-- Accept/reject verdicts of the push-variant handler gate over a sequence of
event timestamps. -/
def handlerRun (window : Duration) (last : Option Timestamp) : List Timestamp → List Bool
  | [] => []
  | t :: ts =>
      let r := handlerStep window last t
      r.2 :: handlerRun window r.1 ts

/-! ## Pin-name resolution (push variant helpers)

`resolveChipLine` parses `PinName` into a chip name and a line offset.
Go's `strings.TrimSpace` trims Unicode whitespace; only the ASCII whitespace
characters are modelled, which covers every string the library documents.
`strconv.Atoi` is modelled without its 64-bit range check. -/

def isSpaceChar (c : Char) : Bool :=
  c = ' ' || c = '\t' || c = '\n' || c = '\x0b' || c = '\x0c' || c = '\r'

/-- `strings.TrimSpace` (ASCII subset). -/
def trimSpace (s : String) : String :=
  String.mk (((s.toList.dropWhile isSpaceChar).reverse.dropWhile isSpaceChar).reverse)

/-- Digit run to a natural number, most significant first. -/
def digitsToNat (l : List Char) : Nat :=
  l.foldl (fun a c => a * 10 + (c.toNat - 48)) 0

/-- `strconv.Atoi`: optional sign followed by one or more ASCII digits. -/
def atoi (s : String) : Option Int :=
  let p : Int × List Char :=
    match s.toList with
    | '+' :: r => (1, r)
    | '-' :: r => (-1, r)
    | r => (1, r)
  if p.2 ≠ [] ∧ p.2.all (fun c => c.isDigit) then some (p.1 * digitsToNat p.2) else none

/-- `strings.SplitN(p, ":", 2)` on a list of characters that contains a colon:
the part before the first colon and everything after it. -/
def splitFirstColon (l : List Char) : List Char × List Char :=
  (l.takeWhile (fun c => c ≠ ':'), (l.dropWhile (fun c => c ≠ ':')).tail)

/-- `resolveChipLine`: accepts `"gpiochipX:line"` or `"line"` (defaulting to
`gpiochip0`); empty and non-numeric identifiers fail. -/
def resolveChipLine (pinName : String) : Except String (String × Int) :=
  let p := trimSpace pinName
  if p.toList = [] then
    .error "PinName is required; format 'gpiochipX:line' or 'line'"
  else if p.toList.contains ':' then
    let parts := splitFirstColon p.toList
    match atoi (String.mk parts.2) with
    | none => .error ("invalid line offset \"" ++ String.mk parts.2 ++ "\"")
    | some off => .ok (String.mk parts.1, off)
  else
    match atoi p with
    | none => .error ("invalid PinName \"" ++ p ++ "\"")
    | some off => .ok ("gpiochip0", off)

/-! ## Push (go-gpiocdev) variant: configuration and registration -/

/-- Internal bias configuration (`Pull` in the push variant). -/
inductive Pull where
  | noChange
  | up
  | down
  | disabled
deriving DecidableEq, Repr

/-- Bias request options produced by `pullOption`. -/
inductive BiasOpt where
  | pullUp
  | pullDown
  | biasDisabled
deriving DecidableEq, Repr

/-- `pullOption`: maps `Pull` to a request option; `PullNoChange` maps to
`nil` (kernel default, `WithBiasAsIs`). -/
def pullOption : Pull → Option BiasOpt
  | .up => some .pullUp
  | .down => some .pullDown
  | .disabled => some .biasDisabled
  | .noChange => none

/-- `ButtonConfig` of the push variant.  The callback function itself lives
outside the model; only its presence (`Callback != nil`) is recorded. -/
structure ButtonConfig where
  PinName : String
  hasCallback : Bool
  DebounceTime : Duration
  Pull : Pull
  ActiveLow : Bool
deriving DecidableEq, Repr

/-- Default application at the top of `AddButton`:
`if config.DebounceTime == 0 { config.DebounceTime = defaultDebounceTime }`. -/
def applyDefaults (config : ButtonConfig) : ButtonConfig :=
  { config with
    DebounceTime := if config.DebounceTime = 0 then defaultDebounceTime else config.DebounceTime }

/-- The semantically relevant content of a `[]gpiocdev.LineReqOption` set
built by `AddButton` (order of the options within one request is immaterial). -/
structure LineReqOpts where
  activeLow : Bool
  risingEdge : Bool
  eventHandler : Bool
  debounce : Option Duration
  bias : Option BiasOpt
deriving DecidableEq, Repr

/-- The `base` option set: `AsInput`, `WithConsumer`, `WithRisingEdge`, plus
`AsActiveLow` when `config.ActiveLow` is set. -/
def baseOpts (config : ButtonConfig) : LineReqOpts :=
  { activeLow := config.ActiveLow
    risingEdge := true
    eventHandler := false
    debounce := none
    bias := none }

/-- `base` extended with `WithEventHandler(handler)` (done for every combo). -/
def withHandler (config : ButtonConfig) : LineReqOpts :=
  { baseOpts config with eventHandler := true }

/-- The fallback option sets of `AddButton`, in the order the code tries them:
full (debounce + bias), without bias (only when a bias was requested), without
debounce (only when a positive debounce is configured), and bare input. -/
def combosFor (config : ButtonConfig) : List LineReqOpts :=
  let full0 := withHandler config
  let full1 := if config.DebounceTime > 0
    then { full0 with debounce := some config.DebounceTime } else full0
  let full := match pullOption config.Pull with
    | some p => { full1 with bias := some p }
    | none => full1
  let combos := [full]
  let combos := match pullOption config.Pull with
    | some _ =>
        let noBias0 := withHandler config
        let noBias := if config.DebounceTime > 0
          then { noBias0 with debounce := some config.DebounceTime } else noBias0
        combos ++ [noBias]
    | none => combos
  let combos :=
    if config.DebounceTime > 0 then
      let noDeb0 := withHandler config
      let noDeb := match pullOption config.Pull with
        | some p => { noDeb0 with bias := some p }
        | none => noDeb0
      combos ++ [noDeb]
    else combos
  combos ++ [withHandler config]

/-- The hardware layer as seen by `gpiocdev.RequestLine`: whether a request
for the given chip, offset and option set succeeds. -/
structure GEnv where
  request : String → Int → LineReqOpts → Bool

/-- The `RequestLine` retry loop of `AddButton`: first succeeding option set. -/
def requestLine (env : GEnv) (chip : String) (offset : Int) :
    List LineReqOpts → Option LineReqOpts
  | [] => none
  | o :: os => if env.request chip offset o then some o else requestLine env chip offset os

/-- Stored runtime record of a registered button (push variant).  `handle`
identifies the kernel line request obtained by `RequestLine`; the request
stays open until `Stop` closes it. -/
structure Button where
  handle : Nat
  opts : LineReqOpts
  chip : String
  offset : Int
  config : ButtonConfig
deriving DecidableEq, Repr

/-- Go-map insertion: replaces the entry with the same key, else appends. -/
def mapInsert {α : Type} (k : String) (v : α) : List (String × α) → List (String × α)
  | [] => [(k, v)]
  | (k2, v2) :: rest =>
      if k2 = k then (k, v) :: rest else (k2, v2) :: mapInsert k v rest

/-- `ButtonManager` of the push variant.  `openLines` tracks every line
request that has been opened and not yet closed; `nextHandle` allocates fresh
handles for new requests. -/
structure Manager where
  buttons : List (String × Button)
  openLines : List Nat
  nextHandle : Nat
deriving DecidableEq, Repr

/-- Registry key used to store the button: `config.PinName`, or
`"%s:%d" chip offset` when the pin name is empty. -/
def keyFor (config : ButtonConfig) (chip : String) (offset : Int) : String :=
  if config.PinName = "" then chip ++ ":" ++ toString offset else config.PinName

/-- `AddButton` (push variant): apply defaults, resolve the identifier, try
the fallback option sets, store the runtime record on success.  Returns the
updated manager plus an error message (`none` on success); on error the
manager is returned unchanged, mirroring the early `return err` paths. -/
def addButton (env : GEnv) (config0 : ButtonConfig) (bm : Manager) :
    Manager × Option String :=
  let config := applyDefaults config0
  match resolveChipLine config.PinName with
  | .error e => (bm, some e)
  | .ok (chip, offset) =>
    match requestLine env chip offset (combosFor config) with
    | none => (bm, some ("failed to request line " ++ chip ++ ":" ++ toString offset))
    | some opts =>
        let h := bm.nextHandle
        let btn : Button :=
          { handle := h, opts := opts, chip := chip, offset := offset, config := config }
        ({ buttons := mapInsert (keyFor config chip offset) btn bm.buttons
           openLines := bm.openLines ++ [h]
           nextHandle := h + 1 }, none)

/-- `Start` (push variant): errors iff the registry is empty; otherwise a
no-op (event handlers were attached at `AddButton`).  Returns the manager and
an error message, `none` on success. -/
def startG (bm : Manager) : Manager × Option String :=
  if bm.buttons.length = 0 then (bm, some "no buttons configured") else (bm, none)

/-- `Stop` (push variant): closes the line of every registered button (a
close error is logged, not returned).  The returned list is the callbacks it
invokes: none.  Line requests of entries that were replaced in the registry
are not closed. -/
def stopG (bm : Manager) : Manager × List String :=
  ({ bm with
     openLines := bm.openLines.filter
       (fun h => !(bm.buttons.any (fun kb => kb.2.handle = h))) }, [])

/-- `GetButtonCount` (push variant). -/
def getButtonCount (bm : Manager) : Nat := bm.buttons.length

/-! ## Poll (periph.io) variant: configuration, registration, watch loop -/

/-- A GPIO level as read by `pin.Read()`. -/
inductive Level where
  | low
  | high
deriving DecidableEq, Repr

/-- `isPressed` (poll variant): `btn.pin.Read() == gpio.Low` — with the
documented external pull-up wiring, a low level means pressed. -/
def isPressed (lvl : Level) : Bool := lvl = Level.low

/-- `gpio.Pull` as a raw constant, as the poll-variant config stores it.
`0` is the Go zero value; `defaultPull = gpio.PullNoChange`. -/
abbrev GoPull := Int

/-- `gpio.PullNoChange`, the poll variant's `defaultPull`. -/
def defaultPull : GoPull := 3

/-- `ButtonConfig` of the poll variant (no `ActiveLow` field exists there). -/
structure PButtonConfig where
  PinName : String
  hasCallback : Bool
  DebounceTime : Duration
  Pull : GoPull
deriving DecidableEq, Repr

/-- The hardware layer as seen by the poll variant: `gpioreg.ByName` pin
lookup and whether `pin.In(pull, gpio.BothEdges)` succeeds for that pin. -/
structure PEnv where
  byName : String → Option Nat
  inOk : Nat → Bool

/-- Stored runtime record of a registered button (poll variant).
`pinOpen` records whether the pin's edge detection is active (`Halt` not yet
called); `lastPress` is the debounce-gate state (0 models the zero time). -/
structure PButton where
  pin : Nat
  config : PButtonConfig
  lastPress : Timestamp
  pinOpen : Bool
deriving DecidableEq, Repr

/-- `ButtonManager` of the poll variant.  `cancelled` models the shared
`context` cancellation; `wg` the `sync.WaitGroup` counter. -/
structure PManager where
  buttons : List (String × PButton)
  cancelled : Bool
  wg : Nat
deriving DecidableEq, Repr

/-- `AddButton` (poll variant): apply defaults, look the pin up by name
(`failed to find pin` when absent), configure it for input with both-edge
detection (`failed to configure pin` on failure), then store the record.
Returns the updated manager plus an error message (`none` on success). -/
def addButtonP (env : PEnv) (config0 : PButtonConfig) (bm : PManager) :
    PManager × Option String :=
  let config : PButtonConfig :=
    { config0 with
      DebounceTime := if config0.DebounceTime = 0 then defaultDebounceTime
        else config0.DebounceTime
      Pull := if config0.Pull = 0 then defaultPull else config0.Pull }
  match env.byName config.PinName with
  | none => (bm, some ("failed to find pin: " ++ config.PinName))
  | some pin =>
      if env.inOk pin then
        ({ bm with
           buttons := mapInsert config.PinName
             { pin := pin, config := config, lastPress := 0, pinOpen := true }
             bm.buttons }, none)
      else (bm, some ("failed to configure pin " ++ config.PinName))

/-- `Start` (poll variant): errors iff the registry is empty; otherwise adds
one watcher per registered button to the wait group and spawns the monitor
goroutines.  Returns the manager and an error message, `none` on success. -/
def startP (bm : PManager) : PManager × Option String :=
  if bm.buttons.length = 0 then (bm, some "no buttons configured")
  else ({ bm with wg := bm.wg + bm.buttons.length }, none)

/-- `Stop` (poll variant): cancels the shared context, joins the watchers,
then `haltAllPins` releases every registered pin.  The returned list is the
callbacks `Stop` itself invokes: none. -/
def stopP (bm : PManager) : PManager × List String :=
  ({ bm with
     cancelled := true
     buttons := bm.buttons.map (fun kb => (kb.1, { kb.2 with pinOpen := false })) }, [])

/-- `GetButtonCount` (poll variant). -/
def getButtonCountP (bm : PManager) : Nat := bm.buttons.length

/-- Outcome of one `monitorButton` loop iteration. -/
inductive MonitorOutcome where
  | exitLoop
  | keepWaiting
  | dispatch
deriving DecidableEq, Repr

/-- One iteration of the `monitorButton` loop after `WaitForEdge` returns:
a failed wait re-checks shutdown and continues; on an edge, shutdown is
checked first, then `isPressed() && isDebouncePassed()` decides whether the
callback is dispatched. -/
def monitorIteration (shuttingDown edgeOk : Bool) (lvl : Level) (debounceOk : Bool) :
    MonitorOutcome :=
  if !edgeOk then
    (if shuttingDown then .exitLoop else .keepWaiting)
  else if shuttingDown then .exitLoop
  else if isPressed lvl && debounceOk then .dispatch
  else .keepWaiting

/-! ## Interleaved lifecycle machine (poll variant)

A small-step machine for the concurrent part of the poll variant: `running`
holds, per registered-button slot, how many monitor goroutines currently run
on it; `wg` mirrors the `sync.WaitGroup` counter (`wg.Add(1)` at spawn,
`wg.Done()` at monitor exit); `cancelSig` is `Stop`'s context cancellation and
`stopRet` is `Stop`'s return point (after `wg.Wait()` and `haltAllPins`),
which by program order can only fire once cancellation happened and the wait
group reached zero. -/

structure Sys where
  cancelled : Bool
  running : List Nat
  linesOpen : List Bool
  stopReturned : Bool
  wg : Nat
deriving DecidableEq, Repr

inductive Ev where
  | startAll
  | edge (i : Nat) (edgeOk : Bool) (lvl : Level) (debounceOk : Bool)
  | cancelSig
  | stopRet
deriving DecidableEq, Repr

/-- One interleaving step.  The returned `Bool` records whether this step
dispatched a user callback. -/
def stepSys (s : Sys) (e : Ev) : Sys × Bool :=
  match e with
  | .startAll =>
      ({ s with running := s.running.map (fun n => n + 1)
                wg := s.wg + s.running.length }, false)
  | .edge i edgeOk lvl debounceOk =>
      if s.running.getD i 0 = 0 then (s, false)
      else
        match monitorIteration s.cancelled edgeOk lvl debounceOk with
        | .exitLoop =>
            ({ s with running := s.running.set i (s.running.getD i 0 - 1)
                      wg := s.wg - 1 }, false)
        | .keepWaiting => (s, false)
        | .dispatch => (s, true)
  | .cancelSig => ({ s with cancelled := true }, false)
  | .stopRet =>
      if s.cancelled = true ∧ s.wg = 0 then
        ({ s with stopReturned := true
                  linesOpen := s.linesOpen.map (fun _ => false) }, false)
      else (s, false)

/-- Run a list of events; collects the per-step callback-dispatch flags. -/
def runEvs (s : Sys) : List Ev → Sys × List Bool
  | [] => (s, [])
  | e :: es =>
      let r := stepSys s e
      let rest := runEvs r.1 es
      (rest.1, r.2 :: rest.2)

/-- Machine invariant: the wait-group counter counts exactly the running
monitors, and once `Stop` has returned, cancellation is in effect and every
line has been released. -/
def sysInv (s : Sys) : Prop :=
  s.wg = s.running.sum ∧
  (s.stopReturned = true → s.cancelled = true ∧ s.linesOpen.all (fun b => !b) = true)

/-- Whether an event is an edge delivery — the only event that can unpark a
monitor goroutine blocked in `WaitForEdge(-1)` and let it observe the
cancellation and call `wg.Done()`. -/
def isEdgeEv : Ev → Bool
  | .edge _ _ _ _ => true
  | _ => false

/-! ## Concrete fixtures used to evaluate the definitions -/

/-- A post-stop machine state: cancelled, one slot with no running monitor,
line released. -/
def c2s : Sys :=
  { cancelled := true, running := [0], linesOpen := [false], stopReturned := true, wg := 0 }

/-- A state in the middle of `Stop`: cancellation signalled, but one monitor
still parked in its unbounded edge wait (its line still open, since
`haltAllPins` runs only after the join), so `wg.Wait` has not completed. -/
def c9blocked : Sys :=
  { cancelled := true, running := [1], linesOpen := [true], stopReturned := false, wg := 1 }

/-- A pin environment in which no name resolves. -/
def c3penv : PEnv := { byName := fun _ => none, inOk := fun _ => true }

/-- A line-request environment accepting every request. -/
def okEnv : GEnv := { request := fun _ _ _ => true }

def c3cfgP : PButtonConfig :=
  { PinName := "GPIO1_A0", hasCallback := true, DebounceTime := 0, Pull := 0 }

def c3cfgG : ButtonConfig :=
  { PinName := "abc", hasCallback := true, DebounceTime := 0, Pull := .noChange
    ActiveLow := false }

def emptyPManager : PManager := { buttons := [], cancelled := false, wg := 0 }

def emptyManager : Manager := { buttons := [], openLines := [], nextHandle := 0 }

def c4btn : PButton :=
  { pin := 0
    config := { PinName := "p", hasCallback := true, DebounceTime := 50000000, Pull := 3 }
    lastPress := 0
    pinOpen := true }

/-- A manager with one registered button, before `Start`. -/
def c4mgr : PManager := { buttons := [("p", c4btn)], cancelled := false, wg := 0 }

def c6cfg : ButtonConfig :=
  { PinName := "gpiochip1:7", hasCallback := true, DebounceTime := 7, Pull := .up
    ActiveLow := true }

/-- A line that only accepts bare input: any hardware debounce or bias
request is refused. -/
def c6env : GEnv :=
  { request := fun _ _ o => o.debounce == none && o.bias == none }

def c7cfg : ButtonConfig :=
  { PinName := "5", hasCallback := true, DebounceTime := 1, Pull := .noChange
    ActiveLow := false }

/-- Manager after registering `c7cfg` once. -/
def c7mgr1 : Manager := (addButton okEnv c7cfg emptyManager).1

/-- Manager after registering `c7cfg` twice (same identifier). -/
def c7mgr2 : Manager := (addButton okEnv c7cfg c7mgr1).1

/-- A configuration with a negative debounce window. -/
def c10cfg : ButtonConfig :=
  { PinName := "9", hasCallback := true, DebounceTime := -5, Pull := .noChange
    ActiveLow := false }

/-! ## Helper lemmas -/

/-- Prepending a smaller bound preserves a non-decreasing chain. -/
theorem chain_le_of_le {s t : Int} {ts : List Int} (h : s ≤ t)
    (hc : List.Chain (fun a b => a ≤ b) t ts) : List.Chain (fun a b => a ≤ b) s ts := by
  cases hc with
  | nil => exact List.Chain.nil
  | cons hab hrest => exact List.Chain.cons (le_trans h hab) hrest

/-- `applyDefaults` does not touch the pin name. -/
theorem applyDefaults_PinName (c : ButtonConfig) : (applyDefaults c).PinName = c.PinName := rfl

/-- Looking a key up right after `mapInsert` with that key yields the new value. -/
theorem lookup_mapInsert {α : Type} (k : String) (v : α) (l : List (String × α)) :
    List.lookup k (mapInsert k v l) = some v := by
  induction l with
  | nil => simp [mapInsert, List.lookup]
  | cons a l ih =>
      by_cases h : a.1 = k
      · simp [mapInsert, h, List.lookup]
      · have hne : (k == a.1) = false := by
          simp [BEq.beq]
          exact fun he => h he.symm
        simp [mapInsert, h, List.lookup, hne, ih]

/-- The retry loop succeeds iff some option set in the list is accepted. -/
theorem requestLine_isSome (env : GEnv) (chip : String) (offset : Int)
    (l : List LineReqOpts) :
    (requestLine env chip offset l).isSome = true ↔
      ∃ o ∈ l, env.request chip offset o = true := by
  induction l with
  | nil => simp [requestLine]
  | cons o os ih =>
      by_cases h : env.request chip offset o = true
      · simp [requestLine, h]
      · simp [requestLine, h, ih]

/-- Releasing every pin is idempotent on the registry. -/
theorem haltAll_idem (l : List (String × PButton)) :
    (l.map (fun kb => (kb.1, { kb.2 with pinOpen := false }))).map
        (fun kb => (kb.1, { kb.2 with pinOpen := false })) =
      l.map (fun kb => (kb.1, { kb.2 with pinOpen := false })) := by
  induction l with
  | nil => rfl
  | cons a l ih => simp only [List.map_cons, ih]

/-- Filtering twice with the same predicate filters once. -/
theorem filter_idem (p : Nat → Bool) (l : List Nat) :
    (l.filter p).filter p = l.filter p := by
  induction l with
  | nil => rfl
  | cons a l ih =>
      by_cases h : p a = true
      · simp [List.filter, h, ih]
      · simp [List.filter, h, ih]

/-- Incrementing every entry adds the length to the sum. -/
theorem sum_map_succ (l : List Nat) : (l.map (fun n => n + 1)).sum = l.sum + l.length := by
  induction l with
  | nil => rfl
  | cons a l ih => simp [ih]; omega

/-- An entry is at most the sum. -/
theorem getD_le_sum (l : List Nat) (i : Nat) : l.getD i 0 ≤ l.sum := by
  induction l generalizing i with
  | nil => simp
  | cons a l ih =>
      cases i with
      | zero =>
          show a ≤ (a :: l).sum
          rw [List.sum_cons]
          exact Nat.le_add_right a l.sum
      | succ j =>
          show l.getD j 0 ≤ (a :: l).sum
          rw [List.sum_cons]
          exact le_trans (ih j) (Nat.le_add_left _ _)

/-- Decrementing a positive entry decrements the sum. -/
theorem sum_set_pred (l : List Nat) (i : Nat) (h : l.getD i 0 ≠ 0) :
    (l.set i (l.getD i 0 - 1)).sum = l.sum - 1 := by
  induction l generalizing i with
  | nil => simp [List.getD] at h
  | cons a l ih =>
      cases i with
      | zero =>
          show ((a - 1) :: l).sum = (a :: l).sum - 1
          have ha : a ≠ 0 := h
          rw [List.sum_cons, List.sum_cons]
          omega
      | succ j =>
          have hj : l.getD j 0 ≠ 0 := h
          have h2 := getD_le_sum l j
          show (a :: l.set j (l.getD j 0 - 1)).sum = (a :: l).sum - 1
          rw [List.sum_cons, List.sum_cons, ih j hj]
          omega

/-! ## C1 -/

/-- C1: The two debounce gates.  The poll-variant gate accepts a candidate
iff `t - lastPress > window` (strict), and with window 0 every candidate of a
strictly increasing timestamp sequence is accepted.  The push-variant
in-handler gate instead accepts iff the window is non-positive or the gap
since the last accepted press strictly exceeds half the window, and always
accepts when no press has been accepted yet. -/
theorem C1_debounce_gates :
    (∀ w l t : Int, (debounceStep w l t).2 = true ↔ t - l > w) ∧
    (∀ (s : Int) (ts : List Int), List.Chain (fun a b => a < b) s ts →
        (debounceRun 0 s ts).all (fun b => b) = true) ∧
    (∀ w l t : Int, handlerAccepts w (some l) t = true ↔ (w ≤ 0 ∨ t - l > w / 2)) ∧
    (∀ w t : Int, handlerAccepts w none t = true) := by
  refine ⟨?_, ?_, ?_, ?_⟩
  · intro w l t
    by_cases h : t - l > w
    · simp [debounceStep, isDebouncePassed, h]
    · simp [debounceStep, isDebouncePassed, h]
  · intro s ts
    induction ts generalizing s with
    | nil => intro _; rfl
    | cons t ts ih =>
        intro h
        rcases List.chain_cons.mp h with ⟨hst, htail⟩
        have hgt : t - s > 0 := by omega
        have hrun : debounceRun 0 s (t :: ts) = true :: debounceRun 0 t ts := by
          simp [debounceRun, debounceStep, isDebouncePassed, hgt]
        rw [hrun, List.all_cons, Bool.true_and]
        exact ih t htail
  · intro w l t
    show (!(decide (w > 0) && decide (t - l ≤ w / 2))) = true ↔ (w ≤ 0 ∨ t - l > w / 2)
    by_cases hw : w > 0 <;> by_cases hg : t - l ≤ w / 2 <;> simp [hw, hg] <;> omega
  · intro w t
    rfl

/-- C1 witness: with window 0 the poll gate accepts every candidate of a
strictly increasing sequence, and the push gate accepts a 40-unit gap under a
50-unit window. -/
theorem C1_witness :
    (debounceRun 0 0 [1, 2, 3]).all (fun b => b) = true ∧
    handlerAccepts 50 (some 0) 40 = true :=
  ⟨C1_debounce_gates.2.1 0 [1, 2, 3]
      (List.Chain.cons (by decide) (List.Chain.cons (by decide)
        (List.Chain.cons (by decide) List.Chain.nil))),
   (C1_debounce_gates.2.2.1 50 0 40).mpr (by decide)⟩

/-- C1 counterexample: with window 50 and the last accepted press at 0, the
push-variant in-handler gate accepts the candidate at 50, although its gap
equals the window exactly and the claim demands rejection
(`50 - 0 > 50` fails). -/
theorem C1_counterexample :
    handlerAccepts 50 (some 0) 50 = true ∧ ¬((50 : Int) - 0 > 50) := by decide

/-! ## C2 -/

/-- Every interleaving step preserves the machine invariant. -/
theorem stepSys_preserves_inv {s : Sys} (h : sysInv s) (e : Ev) : sysInv (stepSys s e).1 := by
  cases e with
  | startAll =>
      refine ⟨?_, h.2⟩
      show s.wg + s.running.length = (s.running.map (fun n => n + 1)).sum
      rw [sum_map_succ, h.1]
  | edge i ok lvl d =>
      simp only [stepSys]
      by_cases hz : s.running.getD i 0 = 0
      · rw [if_pos hz]; exact h
      · rw [if_neg hz]
        cases monitorIteration s.cancelled ok lvl d with
        | exitLoop =>
            refine ⟨?_, h.2⟩
            show s.wg - 1 = (s.running.set i (s.running.getD i 0 - 1)).sum
            rw [sum_set_pred s.running i hz, h.1]
        | keepWaiting => exact h
        | dispatch => exact h
  | cancelSig =>
      exact ⟨h.1, fun hs => ⟨rfl, (h.2 hs).2⟩⟩
  | stopRet =>
      simp only [stepSys]
      by_cases hg : s.cancelled = true ∧ s.wg = 0
      · rw [if_pos hg]
        refine ⟨h.1, fun _ => ⟨hg.1, ?_⟩⟩
        show (s.linesOpen.map (fun _ => false)).all (fun b => !b) = true
        simp
      · rw [if_neg hg]; exact h

/-- From a state where `Stop` has returned, every step dispatches no callback
and `stopReturned` stays set. -/
theorem stepSys_stopReturned {s : Sys} (h : sysInv s) (hs : s.stopReturned = true) (e : Ev) :
    (stepSys s e).2 = false ∧ (stepSys s e).1.stopReturned = true := by
  have hc : s.cancelled = true := (h.2 hs).1
  cases e with
  | startAll => exact ⟨rfl, hs⟩
  | edge i ok lvl d =>
      simp only [stepSys]
      by_cases hz : s.running.getD i 0 = 0
      · rw [if_pos hz]; exact ⟨rfl, hs⟩
      · rw [if_neg hz]
        have hmo : monitorIteration s.cancelled ok lvl d = .exitLoop := by
          rw [hc]; cases ok <;> rfl
        rw [hmo]
        exact ⟨rfl, hs⟩
  | cancelSig => exact ⟨rfl, hs⟩
  | stopRet =>
      simp only [stepSys]
      by_cases hg : s.cancelled = true ∧ s.wg = 0
      · rw [if_pos hg]; exact ⟨rfl, rfl⟩
      · rw [if_neg hg]; exact ⟨rfl, hs⟩

/-- From a state where `Stop` has returned, no run of events ever dispatches
a callback, and the lines stay released. -/
theorem runEvs_quiescent {s : Sys} (h : sysInv s) (hs : s.stopReturned = true)
    (es : List Ev) :
    (runEvs s es).2.all (fun c => !c) = true ∧
    (runEvs s es).1.linesOpen.all (fun b => !b) = true := by
  induction es generalizing s with
  | nil => exact ⟨rfl, (h.2 hs).2⟩
  | cons e es ih =>
      have h1 := stepSys_preserves_inv h e
      have h2 := stepSys_stopReturned h hs e
      have hrec := ih h1 h2.2
      constructor
      · show ((stepSys s e).2 :: (runEvs (stepSys s e).1 es).2).all (fun c => !c) = true
        rw [List.all_cons, h2.1, hrec.1]
        rfl
      · show (runEvs (stepSys s e).1 es).1.linesOpen.all (fun b => !b) = true
        exact hrec.2

/-- C2: `Stop` returns only once cancellation is in effect and every watch
goroutine has exited (`stopRet` can first set `stopReturned` only from a
state with no running monitor), and from any state where `Stop` has
returned, no further event — in particular no edge on any registered line —
dispatches a callback, and every line stays released. -/
theorem C2_stop_join (s : Sys) (hinv : sysInv s) :
    (∀ e : Ev, (stepSys s e).1.stopReturned = true →
        s.stopReturned = true ∨ (s.running.sum = 0 ∧ s.cancelled = true)) ∧
    (s.stopReturned = true → ∀ es : List Ev,
        (runEvs s es).2.all (fun c => !c) = true ∧
        (runEvs s es).1.linesOpen.all (fun b => !b) = true) := by
  constructor
  · intro e
    cases e with
    | startAll => exact Or.inl
    | edge i ok lvl d =>
        simp only [stepSys]
        by_cases hz : s.running.getD i 0 = 0
        · rw [if_pos hz]; exact Or.inl
        · rw [if_neg hz]
          cases monitorIteration s.cancelled ok lvl d <;> exact Or.inl
    | cancelSig => exact Or.inl
    | stopRet =>
        simp only [stepSys]
        by_cases hg : s.cancelled = true ∧ s.wg = 0
        · rw [if_pos hg]
          intro _
          exact Or.inr ⟨by rw [← hinv.1]; exact hg.2, hg.1⟩
        · rw [if_neg hg]; exact Or.inl
  · intro hs es
    exact runEvs_quiescent hinv hs es

/-- C2 witness: in a concrete post-stop state, a later edge event (even a
pressed, debounce-passing one) dispatches no callback. -/
theorem C2_witness :
    (runEvs c2s [Ev.edge 0 true Level.low true]).2.all (fun c => !c) = true :=
  ((C2_stop_join c2s ⟨rfl, fun _ => ⟨rfl, rfl⟩⟩).2 rfl [Ev.edge 0 true Level.low true]).1

/-! ## C3 -/

/-- C3: In both variants, registering a configuration whose identifier does
not resolve to a hardware line (poll: `gpioreg.ByName` returns `nil`; push:
`resolveChipLine` fails) returns the resolution error and leaves the registry
— hence `GetButtonCount` — unchanged. -/
theorem C3_pin_not_found :
    (∀ (env : PEnv) (cfg : PButtonConfig) (bm : PManager),
        env.byName cfg.PinName = none →
          (addButtonP env cfg bm).1 = bm ∧ (addButtonP env cfg bm).2.isSome = true) ∧
    (∀ (env : GEnv) (cfg : ButtonConfig) (bm : Manager) (e : String),
        resolveChipLine cfg.PinName = .error e →
          (addButton env cfg bm).1 = bm ∧ (addButton env cfg bm).2 = some e) := by
  constructor
  · intro env cfg bm h
    simp [addButtonP, h]
  · intro env cfg bm e h
    simp [addButton, applyDefaults_PinName, h]

/-- C3 witness: an unresolvable pin name in each variant. -/
theorem C3_witness :
    ((addButtonP c3penv c3cfgP emptyPManager).1 = emptyPManager ∧
      (addButtonP c3penv c3cfgP emptyPManager).2.isSome = true) ∧
    ((addButton okEnv c3cfgG emptyManager).1 = emptyManager ∧
      (addButton okEnv c3cfgG emptyManager).2 = some "invalid PinName \"abc\"") :=
  ⟨C3_pin_not_found.1 c3penv c3cfgP emptyPManager rfl,
   C3_pin_not_found.2 okEnv c3cfgG emptyManager "invalid PinName \"abc\"" rfl⟩

/-! ## C4 -/

/-- C4 (amended): in both variants `Start` returns the no-buttons-configured
error iff the registry is empty at the time of the call; but a second `Start`
call with a non-empty registry returns no error (it is not rejected). -/
theorem C4_start_empty_iff :
    (∀ bm : PManager, (startP bm).2.isSome = true ↔ bm.buttons = []) ∧
    (∀ bm : Manager, (startG bm).2.isSome = true ↔ bm.buttons = []) ∧
    (∀ bm : PManager, bm.buttons ≠ [] → (startP (startP bm).1).2 = none) := by
  refine ⟨?_, ?_, ?_⟩
  · intro bm
    by_cases h : bm.buttons.length = 0
    · simp [startP, h, List.length_eq_zero.mp h]
    · simp [startP, h]
      exact fun he => h (by rw [he]; rfl)
  · intro bm
    by_cases h : bm.buttons.length = 0
    · simp [startG, h, List.length_eq_zero.mp h]
    · simp [startG, h]
      exact fun he => h (by rw [he]; rfl)
  · intro bm h
    have hl : ¬bm.buttons.length = 0 := fun h0 => h (List.length_eq_zero.mp h0)
    simp [startP, hl]

/-- C4 witness: an empty registry errors; one registered button makes two
consecutive `Start` calls both succeed. -/
theorem C4_witness :
    (startP emptyPManager).2.isSome = true ∧ (startP (startP c4mgr).1).2 = none :=
  ⟨(C4_start_empty_iff.1 emptyPManager).mpr rfl,
   C4_start_empty_iff.2.2 c4mgr (by decide)⟩

/-- C4 counterexample: with one registered button, a second `Start` call in
the same run returns no error, contradicting the claim that a second call
errors. -/
theorem C4_counterexample :
    c4mgr.buttons ≠ [] ∧ (startP (startP c4mgr).1).2 = none := by
  constructor
  · decide
  · rfl

/-! ## C5 -/

/-- C5: In the poll-variant watch loop an edge dispatches the callback iff
the manager is not shutting down, the read level is low — the pressed level
under the (fixed, documented) active-low wiring — and the debounce gate
accepts; for a non-pressed level the gate verdict cannot influence the
outcome.  In the push variant the configured `ActiveLow` flag is applied to
the line request together with rising-edge (press) detection, so only press
events reach the in-handler gate. -/
theorem C5_pressed_classification :
    (∀ (sd : Bool) (lvl : Level) (d : Bool),
        monitorIteration sd true lvl d = .dispatch ↔
          (sd = false ∧ lvl = Level.low ∧ d = true)) ∧
    (∀ (sd : Bool) (lvl : Level) (d d2 : Bool), lvl ≠ Level.low →
        monitorIteration sd true lvl d = monitorIteration sd true lvl d2) ∧
    (∀ cfg : ButtonConfig,
        (baseOpts cfg).activeLow = cfg.ActiveLow ∧ (baseOpts cfg).risingEdge = true) := by
  refine ⟨?_, ?_, ?_⟩
  · intro sd lvl d
    cases sd <;> cases lvl <;> cases d <;> simp [monitorIteration, isPressed]
  · intro sd lvl d d2 hne
    cases lvl
    · exact absurd rfl hne
    · cases sd <;> cases d <;> cases d2 <;> rfl
  · intro cfg
    exact ⟨rfl, rfl⟩

/-- C5 witness: a high (unpressed) level dispatches nothing whatever the gate
says, and a low level with an accepting gate dispatches. -/
theorem C5_witness :
    monitorIteration false true Level.high true = monitorIteration false true Level.high false ∧
    monitorIteration false true Level.low true = MonitorOutcome.dispatch :=
  ⟨C5_pressed_classification.2.1 false Level.high true false (by decide),
   (C5_pressed_classification.1 false Level.low true).mpr ⟨rfl, rfl, rfl⟩⟩

/-! ## C6 -/

/-- C6: When both a positive debounce and a bias are requested, `AddButton`
tries the option sets in exactly the claimed order — full (debounce + bias),
without hardware bias, without hardware debounce, bare input; registration
succeeds iff some attempt is accepted by the hardware layer, in which case
the button is stored in the registry, and the request-failure error is
returned only when every attempt failed. -/
theorem C6_fallback_order :
    (∀ cfg : ButtonConfig, 0 < cfg.DebounceTime → (pullOption cfg.Pull).isSome = true →
        combosFor cfg =
          [{ withHandler cfg with debounce := some cfg.DebounceTime, bias := pullOption cfg.Pull },
           { withHandler cfg with debounce := some cfg.DebounceTime },
           { withHandler cfg with bias := pullOption cfg.Pull },
           withHandler cfg]) ∧
    (∀ (env : GEnv) (cfg : ButtonConfig) (bm : Manager) (chip : String) (off : Int),
        resolveChipLine cfg.PinName = .ok (chip, off) →
          (((addButton env cfg bm).2 = none) ↔
            ∃ o ∈ combosFor (applyDefaults cfg), env.request chip off o = true) ∧
          ((addButton env cfg bm).2 = none →
            (List.lookup (keyFor (applyDefaults cfg) chip off)
              (addButton env cfg bm).1.buttons).isSome = true)) := by
  constructor
  · intro cfg hd hp
    rcases Option.isSome_iff_exists.mp hp with ⟨p, hpp⟩
    simp [combosFor, hd, hpp]
  · intro env cfg bm chip off hres
    have hres2 : resolveChipLine (applyDefaults cfg).PinName = .ok (chip, off) := by
      rw [applyDefaults_PinName]; exact hres
    cases hreq : requestLine env chip off (combosFor (applyDefaults cfg)) with
    | none =>
        have hnone : ¬∃ o ∈ combosFor (applyDefaults cfg), env.request chip off o = true := by
          intro hx
          have := (requestLine_isSome env chip off (combosFor (applyDefaults cfg))).mpr hx
          rw [hreq] at this
          exact absurd this (by simp)
        constructor
        · simp [addButton, hres2, hreq, hnone]
        · intro hsucc
          simp [addButton, hres2, hreq] at hsucc
    | some o =>
        have hex : ∃ o2 ∈ combosFor (applyDefaults cfg), env.request chip off o2 = true :=
          (requestLine_isSome env chip off (combosFor (applyDefaults cfg))).mp
            (by rw [hreq]; rfl)
        constructor
        · simp [addButton, hres2, hreq, hex]
        · intro _
          simp [addButton, hres2, hreq, lookup_mapInsert]

/-- C6 witness: a config requesting internal pull-up and debounce on a line
that accepts only bare input still registers, via the last fallback. -/
theorem C6_witness :
    combosFor c6cfg =
      [{ withHandler c6cfg with debounce := some c6cfg.DebounceTime, bias := pullOption c6cfg.Pull },
       { withHandler c6cfg with debounce := some c6cfg.DebounceTime },
       { withHandler c6cfg with bias := pullOption c6cfg.Pull },
       withHandler c6cfg] ∧
    (addButton c6env c6cfg emptyManager).2 = none :=
  ⟨C6_fallback_order.1 c6cfg (by decide) (by decide),
   ((C6_fallback_order.2 c6env c6cfg emptyManager "gpiochip1" 7 rfl).1).mpr (by decide)⟩

/-! ## C7 -/

/-- C7 (amended): re-registering never releases any open line request, and on
success the identifier is unconditionally (re)bound to the freshly created
record — whether or not a prior entry under that identifier had been
released. -/
theorem C7_replace_unconditional :
    ∀ (env : GEnv) (cfg : ButtonConfig) (bm : Manager) (chip : String) (off : Int),
      resolveChipLine cfg.PinName = .ok (chip, off) →
        (∀ h ∈ bm.openLines, h ∈ (addButton env cfg bm).1.openLines) ∧
        ((addButton env cfg bm).2 = none →
          ∃ b : Button,
            List.lookup (keyFor (applyDefaults cfg) chip off)
                (addButton env cfg bm).1.buttons = some b ∧
            b.handle = bm.nextHandle) := by
  intro env cfg bm chip off hres
  have hres2 : resolveChipLine (applyDefaults cfg).PinName = .ok (chip, off) := by
    rw [applyDefaults_PinName]; exact hres
  cases hreq : requestLine env chip off (combosFor (applyDefaults cfg)) with
  | none =>
      constructor
      · intro h hmem
        simp [addButton, hres2, hreq]
        exact hmem
      · intro hsucc
        simp [addButton, hres2, hreq] at hsucc
  | some o =>
      constructor
      · intro h hmem
        simp [addButton, hres2, hreq]
        exact Or.inl hmem
      · intro _
        have hlk : List.lookup (keyFor (applyDefaults cfg) chip off)
            (addButton env cfg bm).1.buttons =
            some { handle := bm.nextHandle, opts := o, chip := chip, offset := off
                   config := applyDefaults cfg } := by
          simp [addButton, hres2, hreq, lookup_mapInsert]
        exact ⟨_, hlk, rfl⟩

/-- C7 witness: applying the theorem to a concrete re-registration. -/
theorem C7_witness :
    (∀ h ∈ c7mgr1.openLines, h ∈ c7mgr2.openLines) ∧
    (∃ b : Button, List.lookup "5" c7mgr2.buttons = some b ∧ b.handle = c7mgr1.nextHandle) :=
  ⟨(C7_replace_unconditional okEnv c7cfg c7mgr1 "gpiochip0" 5 rfl).1,
   (C7_replace_unconditional okEnv c7cfg c7mgr1 "gpiochip0" 5 rfl).2 rfl⟩

/-- C7 counterexample: re-registering identifier "5" succeeds and replaces
the registry entry (handle 0 becomes handle 1) although the prior entry's
line request was never released — handle 0 is still open before and after
the replacement, contradicting "replaces only if the prior one has been
released". -/
theorem C7_counterexample :
    (List.lookup "5" c7mgr1.buttons).map (fun b => b.handle) = some 0 ∧
    0 ∈ c7mgr1.openLines ∧
    (addButton okEnv c7cfg c7mgr1).2 = none ∧
    (List.lookup "5" c7mgr2.buttons).map (fun b => b.handle) = some 1 ∧
    0 ∈ c7mgr2.openLines := by decide

/-! ## C8 -/

/-- C8: The last-accepted-press state is monotonic non-decreasing in both
variants: over any time-ordered candidate sequence the poll-variant
`lastPress` states form a non-decreasing chain, and one push-variant handler
step never moves `last` backwards. -/
theorem C8_last_press_monotone :
    (∀ (w s : Int) (ts : List Int), List.Chain (fun a b => a ≤ b) s ts →
        List.Chain (fun a b => a ≤ b) s (debounceLasts w s ts)) ∧
    (∀ w l t x : Int, l ≤ t → (handlerStep w (some l) t).1 = some x → l ≤ x) := by
  constructor
  · intro w s ts
    induction ts generalizing s with
    | nil => intro _; exact List.Chain.nil
    | cons t ts ih =>
        intro h
        rcases List.chain_cons.mp h with ⟨hst, htail⟩
        cases hacc : isDebouncePassed w s t with
        | true =>
            have heq : debounceLasts w s (t :: ts) = t :: debounceLasts w t ts := by
              simp [debounceLasts, debounceStep, hacc]
            rw [heq]
            exact List.Chain.cons hst (ih t htail)
        | false =>
            have heq : debounceLasts w s (t :: ts) = s :: debounceLasts w s ts := by
              simp [debounceLasts, debounceStep, hacc]
            rw [heq]
            exact List.Chain.cons le_rfl (ih s (chain_le_of_le hst htail))
  · intro w l t x hlt hstep
    cases hacc : handlerAccepts w (some l) t with
    | true =>
        have heq : (handlerStep w (some l) t).1 = some t := by simp [handlerStep, hacc]
        rw [heq] at hstep
        have hx : t = x := Option.some.inj hstep
        exact hx ▸ hlt
    | false =>
        have heq : (handlerStep w (some l) t).1 = some l := by simp [handlerStep, hacc]
        rw [heq] at hstep
        have hx : l = x := Option.some.inj hstep
        exact hx ▸ le_rfl

/-- C8 witness: a concrete time-ordered run keeps the chain non-decreasing,
and a rejected push-variant event keeps `last` in place. -/
theorem C8_witness :
    List.Chain (fun a b => a ≤ b) 0 (debounceLasts 50 0 [10, 20, 100]) ∧ (0 : Int) ≤ 0 :=
  ⟨C8_last_press_monotone.1 50 0 [10, 20, 100]
      (List.Chain.cons (by decide) (List.Chain.cons (by decide)
        (List.Chain.cons (by decide) List.Chain.nil))),
   C8_last_press_monotone.2 50 0 5 0 (by decide) rfl⟩

/-! ## C9 -/

/-- Supporting result: as a state transformer, `Stop` is idempotent in both
variants — the state after two consecutive calls equals the state after one
— it invokes no callback, and it has no error channel. -/
theorem stop_transformer_idempotent :
    (∀ bm : PManager, stopP (stopP bm).1 = stopP bm) ∧
    (∀ bm : PManager, (stopP bm).2 = []) ∧
    (∀ bm : Manager, stopG (stopG bm).1 = stopG bm) ∧
    (∀ bm : Manager, (stopG bm).2 = []) := by
  refine ⟨?_, fun _ => rfl, ?_, fun _ => rfl⟩
  · intro bm
    simp [stopP, haltAll_idem]
  · intro bm
    simp [stopG, filter_idem]

/-- C9 (code bug): `Stop` does not always eventually return.  From any state
where the join has not completed (`wg ≠ 0`) and a monitor is parked in its
unbounded `WaitForEdge(-1)`, every run containing no edge event leaves
`Stop` blocked: the stop-return transition never fires and the wait-group
counter never reaches zero.  Since `haltAllPins` runs only after `wg.Wait`,
nothing unparks the monitor once the hardware is quiet, so the blockage is
permanent. -/
theorem C9_stop_blocked_without_edges :
    ∀ (s : Sys) (es : List Ev), s.stopReturned = false → s.wg ≠ 0 →
      es.all (fun e => !isEdgeEv e) = true →
      (runEvs s es).1.stopReturned = false ∧ (runEvs s es).1.wg ≠ 0 := by
  intro s es
  induction es generalizing s with
  | nil =>
      intro h1 h2 _
      exact ⟨h1, h2⟩
  | cons e es ih =>
      intro h1 h2 hall
      rw [List.all_cons, Bool.and_eq_true] at hall
      rcases hall with ⟨hne, htail⟩
      have hstep : (stepSys s e).1.stopReturned = false ∧ (stepSys s e).1.wg ≠ 0 := by
        cases e with
        | startAll =>
            refine ⟨h1, ?_⟩
            show s.wg + s.running.length ≠ 0
            omega
        | edge i ok lvl d => simp [isEdgeEv] at hne
        | cancelSig => exact ⟨h1, h2⟩
        | stopRet =>
            simp only [stepSys]
            have hg : ¬(s.cancelled = true ∧ s.wg = 0) := fun hg2 => h2 hg2.2
            rw [if_neg hg]
            exact ⟨h1, h2⟩
      exact ih (stepSys s e).1 hstep.1 hstep.2 htail

/-- C9 witness: at the concrete mid-stop state with a parked monitor,
repeated attempts to complete the join (with no edge arriving) leave `Stop`
unreturned. -/
theorem C9_witness :
    (runEvs c9blocked [Ev.stopRet, Ev.stopRet, Ev.stopRet]).1.stopReturned = false :=
  (C9_stop_blocked_without_edges c9blocked [Ev.stopRet, Ev.stopRet, Ev.stopRet]
      rfl (by decide) (by decide)).1


/-! ## C10 -/

/-- C10: Registration replaces the debounce window by the 50 ms default only
when it is exactly zero — a negative window is kept as configured and not
rejected — and under a negative window the poll-variant gate accepts every
time-ordered candidate, and the push-variant gate accepts every event. -/
theorem C10_negative_debounce :
    (∀ cfg : ButtonConfig, cfg.DebounceTime ≠ 0 →
        (applyDefaults cfg).DebounceTime = cfg.DebounceTime) ∧
    (∀ cfg : ButtonConfig, cfg.DebounceTime = 0 →
        (applyDefaults cfg).DebounceTime = defaultDebounceTime) ∧
    (∀ w l t : Int, w < 0 → l ≤ t → isDebouncePassed w l t = true) ∧
    (∀ (w : Int) (last : Option Int) (t : Int), w ≤ 0 → handlerAccepts w last t = true) := by
  refine ⟨?_, ?_, ?_, ?_⟩
  · intro cfg h
    simp [applyDefaults, h]
  · intro cfg h
    simp [applyDefaults, h]
  · intro w l t hw hl
    simp only [isDebouncePassed, decide_eq_true_eq]
    show (w : Int) < t - l
    omega
  · intro w last t hw
    cases last with
    | none => rfl
    | some l =>
        have hd : decide (w > 0) = false := by simp; omega
        simp [handlerAccepts, hd]

/-- C10 witness: a negative window (−5) survives default application, and
both gates accept candidates under it. -/
theorem C10_witness :
    (applyDefaults c10cfg).DebounceTime = c10cfg.DebounceTime ∧
    isDebouncePassed (-5) 0 3 = true ∧
    handlerAccepts (-5) (some 100) 100 = true :=
  ⟨C10_negative_debounce.1 c10cfg (by decide),
   C10_negative_debounce.2.2.1 (-5) 0 3 (by decide) (by decide),
   C10_negative_debounce.2.2.2 (-5) (some 100) 100 (by decide)⟩

end GpioButtons
